import Mathlib

/-!
Verification of the PantryChef recipe-recommendation computation.

The core of the repository is the SQL view `recipe_recommendations`
(migration file, lines 660-703), queried per user by
`fetchRecommendations` in `src/pages/Dashboard.tsx` (lines 56-71).
This file gives a shallow embedding of the four tables, the view query
(inner joins, a cross join against all profiles, a left join against
the pantry, the correlated NOT EXISTS anti-join on restrictions,
GROUP BY including `up.user_id`, the aggregates, and the HAVING
clause), and the Dashboard query (filter on `user_id`, sort by
`v_score` descending), and proves properties of the embedding.

Conventions:
* UUIDs are modelled as `Nat`.
* SQL NULL is modelled by `Option`.
* `v_score = ROUND(owned / total * 100, 2)` is modelled in hundredths
  of a percent as a `Nat` (so `50.00` is `5000`, `100.00` is `10000`),
  with `Option` for the NULL produced by `NULLIF(total, 0)`.
  Postgres `ROUND` on nonnegative numerics rounds half away from zero,
  i.e. `round x = ⌊x + 1/2⌋`.
-/

/-- A row of `public.ingredients` (id, name; category irrelevant to the view). -/
structure Ingredient where
  id : Nat
  name : String
deriving DecidableEq, Repr

/-- A row of `public.recipes`; only the columns the grouped claims depend on
are kept (the view groups by every selected recipe column, so grouping by the
whole record is faithful). -/
structure Recipe where
  id : Nat
  title : String
deriving DecidableEq, Repr

/-- A row of `public.recipe_components`. -/
structure RecipeComponent where
  recipe_id : Nat
  ingredient_id : Nat
  quantity : Int
  unit : Option String
deriving DecidableEq, Repr

/-- A row of `public.user_pantry` (quantity/unit are ignored by the view's
join condition, which matches on ingredient and user only). -/
structure PantryEntry where
  user_id : Nat
  ingredient_id : Nat
deriving DecidableEq, Repr

/-- The CHECK constraint `restriction_type IN ('allergy', 'dietary')`. -/
inductive RestrictionType where
  | allergy : RestrictionType
  | dietary : RestrictionType
deriving DecidableEq, Repr

/-- A row of `public.user_restrictions`. -/
structure Restriction where
  user_id : Nat
  ingredient_id : Nat
  restriction_type : RestrictionType
deriving DecidableEq, Repr

/-- The database state read by the view: `profiles` (ids only), the two
catalog tables, and the two per-user tables. -/
structure DB where
  profiles : List Nat
  ingredients : List Ingredient
  recipes : List Recipe
  recipe_components : List RecipeComponent
  user_pantry : List PantryEntry
  user_restrictions : List Restriction
deriving Repr

/-- One row of the FROM clause after all joins, before WHERE/GROUP BY:
recipe `r` INNER JOIN component `rc` INNER JOIN ingredient `i`
CROSS JOIN profile `p` LEFT JOIN pantry entry `up` (None when the user
does not own the required ingredient). -/
structure JRow where
  r : Recipe
  rc : RecipeComponent
  i : Ingredient
  p : Nat
  up : Option PantryEntry
deriving DecidableEq, Repr

/-- LEFT JOIN `user_pantry up ON rc.ingredient_id = up.ingredient_id AND
p.id = up.user_id`: the matching pantry rows, or a single NULL row when
none matches. -/
def leftJoinPantry (db : DB) (rc : RecipeComponent) (p : Nat) :
    List (Option PantryEntry) :=
  let ms := db.user_pantry.filter
    (fun up => up.ingredient_id == rc.ingredient_id && up.user_id == p)
  if ms.isEmpty then [none] else ms.map some

/-- The joined row set of the view's FROM clause. -/
def joinedRows (db : DB) : List JRow :=
  db.recipes.flatMap fun r =>
    (db.recipe_components.filter (fun rc => rc.recipe_id == r.id)).flatMap fun rc =>
      (db.ingredients.filter (fun i => i.id == rc.ingredient_id)).flatMap fun i =>
        db.profiles.flatMap fun p =>
          (leftJoinPantry db rc p).map fun up =>
            { r := r, rc := rc, i := i, p := p, up := up }

/-- The correlated subquery `EXISTS (SELECT 1 FROM user_restrictions ur
WHERE ur.user_id = p.id AND ur.ingredient_id = rc.ingredient_id)`. -/
def restrictedFor (db : DB) (p ing : Nat) : Bool :=
  db.user_restrictions.any
    (fun ur => ur.user_id == p && ur.ingredient_id == ing)

/-- The joined rows surviving the WHERE NOT EXISTS anti-join. Note the
anti-join is evaluated per joined row, i.e. per required ingredient, not
per recipe. -/
def filteredRows (db : DB) : List JRow :=
  (joinedRows db).filter (fun row => !(restrictedFor db row.p row.rc.ingredient_id))

/-- The GROUP BY key: every selected recipe column together with
`up.user_id` (the pantry-side user id, which is NULL on rows where the
user does not own the ingredient — all such NULL rows, for every user,
share one group per recipe). -/
def groupKey (row : JRow) : Recipe × Option Nat :=
  (row.r, row.up.map (fun e => e.user_id))

/-- First-occurrence deduplication, carrying the set of already-seen
elements. -/
def dedupFirstAux {α : Type} [DecidableEq α] (seen : List α) : List α → List α
  | [] => []
  | x :: xs =>
      if x ∈ seen then dedupFirstAux seen xs
      else x :: dedupFirstAux (x :: seen) xs

/-- Deduplicate a list keeping the first occurrence of each element. -/
def dedupFirst {α : Type} [DecidableEq α] (l : List α) : List α :=
  dedupFirstAux [] l

/-- Round-half-up division: `⌊num / den + 1/2⌋` for naturals. -/
def roundHalfUp (num den : Nat) : Nat :=
  (2 * num + den) / (2 * den)

/-- `ROUND(CAST(owned AS DECIMAL) / NULLIF(total, 0) * 100, 2)`, in
hundredths of a percent; `none` is the NULL produced when `total = 0`. -/
def vScoreCenti (owned total : Nat) : Option Nat :=
  if total = 0 then none else some (roundHalfUp (owned * 10000) total)

/-- One output row of the `recipe_recommendations` view (the columns the
claims are about; the remaining recipe metadata columns are carried by
`id`/`title` through the group key). -/
structure RecView where
  id : Nat
  title : String
  user_id : Option Nat
  v_score : Option Nat
  missing_ingredients : Option (List String)
  total_ingredients : Nat
  owned_ingredients : Nat
deriving DecidableEq, Repr

/-- The SELECT-list aggregates of one group:
`COUNT(DISTINCT rc.ingredient_id)`, `COUNT(DISTINCT up.ingredient_id)`
(COUNT DISTINCT ignores NULLs), the rounded `v_score`, and
`ARRAY_AGG(DISTINCT CASE WHEN up.ingredient_id IS NULL THEN i.name ELSE
NULL END) FILTER (WHERE up.ingredient_id IS NULL)` (an aggregate over
zero rows is NULL). -/
def aggGroup (k : Recipe × Option Nat) (rows : List JRow) : RecView :=
  let total := (dedupFirst (rows.map (fun row => row.rc.ingredient_id))).length
  let owned :=
    (dedupFirst (rows.filterMap (fun row => row.up.map (fun e => e.ingredient_id)))).length
  let missingRows := rows.filter (fun row => row.up.isNone)
  { id := k.1.id
    title := k.1.title
    user_id := k.2
    v_score := vScoreCenti owned total
    missing_ingredients :=
      if missingRows.isEmpty then none
      else some (dedupFirst (missingRows.map (fun row => row.i.name)))
    total_ingredients := total
    owned_ingredients := owned }

/-- The `recipe_recommendations` view: group the filtered rows by
`groupKey`, aggregate each group, and apply
`HAVING COUNT(DISTINCT rc.ingredient_id) > 0`. -/
def recipe_recommendations (db : DB) : List RecView :=
  ((dedupFirst ((filteredRows db).map groupKey)).map fun k =>
      aggGroup k ((filteredRows db).filter (fun row => groupKey row = k))).filter
    (fun v => 0 < v.total_ingredients)

/-- The comparator behind `ORDER BY v_score DESC` (Postgres sorts NULLS
FIRST under DESC): `vsGE a b` means `a` may come no later than `b`. -/
def vsGE (a b : Option Nat) : Bool :=
  match a, b with
  | none, _ => true
  | some _, none => false
  | some x, some y => y ≤ x

/-- Strict version of `vsGE`. -/
def vsGT (a b : Option Nat) : Bool :=
  vsGE a b && !(vsGE b a)

/-- Stable descending insertion: `x` goes in front of the first element
not strictly above it, so equal scores keep their input order. -/
def insertDesc (x : RecView) : List RecView → List RecView
  | [] => [x]
  | y :: ys =>
      if vsGT y.v_score x.v_score then y :: insertDesc x ys
      else x :: y :: ys

/-- Stable sort by `v_score` descending, modelling
`.order(v_score, descending)`. -/
def sortByVScoreDesc : List RecView → List RecView
  | [] => []
  | x :: xs => insertDesc x (sortByVScoreDesc xs)

/-- `fetchRecommendations` from `Dashboard.tsx`: select all rows of the
view with `user_id = userId` (SQL equality, so NULL rows never match)
ordered by `v_score` descending. -/
def fetchRecommendations (db : DB) (userId : Nat) : List RecView :=
  sortByVScoreDesc
    ((recipe_recommendations db).filter (fun v => v.user_id == some userId))

/-! ### Concrete database states used to evaluate the embedding -/

/-- The spec's Omelette scenario: a six-ingredient recipe, one user whose
pantry holds Eggs, Cheese and Milk, no restrictions. -/
def omeletteDB : DB where
  profiles := [1]
  ingredients :=
    [⟨1, "Eggs"⟩, ⟨2, "Cheese"⟩, ⟨3, "Milk"⟩, ⟨4, "Butter"⟩, ⟨5, "Salt"⟩, ⟨6, "Pepper"⟩]
  recipes := [⟨1, "Omelette"⟩]
  recipe_components :=
    [⟨1, 1, 3, some "pieces"⟩, ⟨1, 2, 50, some "grams"⟩, ⟨1, 3, 50, some "ml"⟩,
     ⟨1, 4, 1, some "tbsp"⟩, ⟨1, 5, 1, some "tsp"⟩, ⟨1, 6, 1, some "tsp"⟩]
  user_pantry := [⟨1, 1⟩, ⟨1, 2⟩, ⟨1, 3⟩]
  user_restrictions := []

/-- A recipe requiring Tomato and Peanut; the user owns Tomato and has a
Peanut allergy. -/
def restrictDB : DB where
  profiles := [1]
  ingredients := [⟨1, "Tomato"⟩, ⟨2, "Peanut"⟩]
  recipes := [⟨1, "Salad"⟩]
  recipe_components := [⟨1, 1, 1, some "piece"⟩, ⟨1, 2, 10, some "grams"⟩]
  user_pantry := [⟨1, 1⟩]
  user_restrictions := [⟨1, 2, RestrictionType.allergy⟩]

/-- A user with an empty pantry and no restrictions, and a recipe with one
requirement. -/
def emptyPantryDB : DB where
  profiles := [1]
  ingredients := [⟨1, "Rice"⟩]
  recipes := [⟨1, "Plain Rice"⟩]
  recipe_components := [⟨1, 1, 200, some "grams"⟩]
  user_pantry := []
  user_restrictions := []

/-- Recipe 2 has an empty requirement set; recipe 1 has one requirement the
user owns. -/
def zeroReqDB : DB where
  profiles := [1]
  ingredients := [⟨1, "Rice"⟩]
  recipes := [⟨1, "Plain Rice"⟩, ⟨2, "Glass Of Air"⟩]
  recipe_components := [⟨1, 1, 200, some "grams"⟩]
  user_pantry := [⟨1, 1⟩]
  user_restrictions := []

/-- A two-ingredient recipe where the user owns one ingredient, used to
exercise a pantry insertion of the other required ingredient. -/
def monoDB : DB where
  profiles := [1]
  ingredients := [⟨1, "Eggs"⟩, ⟨2, "Cheese"⟩]
  recipes := [⟨1, "Omelette"⟩]
  recipe_components := [⟨1, 1, 3, some "pieces"⟩, ⟨1, 2, 50, some "grams"⟩]
  user_pantry := [⟨1, 1⟩]
  user_restrictions := []

/-- The pantry row inserted in the monotonicity scenario: user 1 acquires
ingredient 2, which the recipe requires. -/
def monoNewEntry : PantryEntry := ⟨1, 2⟩

/-! ### Structural lemmas about the embedding -/

/-- Membership in the seen-carrying deduplication. -/
theorem mem_dedupFirstAux {α : Type} [DecidableEq α] (seen : List α) (l : List α)
    (a : α) : a ∈ dedupFirstAux seen l ↔ a ∈ l ∧ a ∉ seen := by
  induction l generalizing seen with
  | nil => simp [dedupFirstAux]
  | cons x xs ih =>
      by_cases hx : x ∈ seen
      · simp only [dedupFirstAux, if_pos hx, ih, List.mem_cons]
        constructor
        · rintro ⟨ha, hs⟩
          exact ⟨Or.inr ha, hs⟩
        · rintro ⟨ha | ha, hs⟩
          · exact absurd hx (ha ▸ hs)
          · exact ⟨ha, hs⟩
      · simp only [dedupFirstAux, if_neg hx, List.mem_cons, ih]
        constructor
        · rintro (rfl | ⟨ha, hs⟩)
          · exact ⟨Or.inl rfl, hx⟩
          · refine ⟨Or.inr ha, fun h => hs (Or.inr h)⟩
        · rintro ⟨rfl | ha, hs⟩
          · exact Or.inl rfl
          · by_cases hax : a = x
            · exact Or.inl hax
            · exact Or.inr ⟨ha, fun h => h.elim hax hs⟩

/-- `dedupFirst` keeps exactly the elements of the list. -/
theorem mem_dedupFirst {α : Type} [DecidableEq α] (l : List α) (a : α) :
    a ∈ dedupFirst l ↔ a ∈ l := by
  simp [dedupFirst, mem_dedupFirstAux]

/-- Any pantry row produced by the left join satisfies the join condition. -/
theorem mem_leftJoinPantry (db : DB) (rc : RecipeComponent) (p : Nat)
    (e : PantryEntry) (h : some e ∈ leftJoinPantry db rc p) :
    e ∈ db.user_pantry ∧ e.ingredient_id = rc.ingredient_id ∧ e.user_id = p := by
  unfold leftJoinPantry at h
  by_cases hempty :
      (db.user_pantry.filter
        (fun up => up.ingredient_id == rc.ingredient_id && up.user_id == p)).isEmpty
  · simp [hempty] at h
  · simp only [hempty, if_neg, Bool.false_eq_true, not_false_iff, List.mem_map,
      Option.some.injEq] at h
    obtain ⟨e', he', rfl⟩ := h
    have := List.mem_filter.mp he'
    simp only [Bool.and_eq_true, beq_iff_eq] at this
    exact ⟨this.1, this.2.1, this.2.2⟩

/-- Invariants of every joined row: each table component comes from its
table, the inner-join conditions hold, and a non-NULL pantry component
matches the left-join condition. -/
theorem mem_joinedRows (db : DB) (row : JRow) (h : row ∈ joinedRows db) :
    row.r ∈ db.recipes ∧ row.rc ∈ db.recipe_components ∧
    row.rc.recipe_id = row.r.id ∧ row.i ∈ db.ingredients ∧
    row.i.id = row.rc.ingredient_id ∧ row.p ∈ db.profiles ∧
    ∀ e, row.up = some e →
      e ∈ db.user_pantry ∧ e.ingredient_id = row.rc.ingredient_id ∧
      e.user_id = row.p := by
  unfold joinedRows at h
  simp only [List.mem_flatMap, List.mem_map, List.mem_filter, beq_iff_eq] at h
  obtain ⟨r, hr, rc, ⟨hrc, hrcr⟩, i, ⟨hi, hii⟩, p, hp, up, hup, heq⟩ := h
  subst heq
  refine ⟨hr, hrc, hrcr, hi, hii, hp, ?_⟩
  intro e he
  subst he
  exact mem_leftJoinPantry db rc p e hup

/-- Characterisation of view membership: a view row is the aggregate of the
group of one of the keys, and passed the HAVING clause. -/
theorem mem_view_iff (db : DB) (v : RecView) :
    v ∈ recipe_recommendations db ↔
      (∃ k ∈ dedupFirst ((filteredRows db).map groupKey),
        v = aggGroup k ((filteredRows db).filter (fun row => groupKey row = k))) ∧
      0 < v.total_ingredients := by
  unfold recipe_recommendations
  simp only [List.mem_filter, List.mem_map, decide_eq_true_eq]
  constructor
  · rintro ⟨⟨k, hk, rfl⟩, hpos⟩
    exact ⟨⟨k, hk, rfl⟩, hpos⟩
  · rintro ⟨⟨k, hk, rfl⟩, hpos⟩
    exact ⟨⟨k, hk, rfl⟩, hpos⟩

/-- Every group key is the key of at least one filtered row. -/
theorem key_has_row (db : DB) (k : Recipe × Option Nat)
    (hk : k ∈ dedupFirst ((filteredRows db).map groupKey)) :
    ∃ row ∈ filteredRows db, groupKey row = k := by
  rw [mem_dedupFirst] at hk
  simpa using hk

/-- Projection: the view row's `user_id` is the group key's pantry-side
user id. -/
theorem aggGroup_user_id (k : Recipe × Option Nat) (rows : List JRow) :
    (aggGroup k rows).user_id = k.2 := rfl

/-- Projection: the view row's `id` is the group's recipe id. -/
theorem aggGroup_id (k : Recipe × Option Nat) (rows : List JRow) :
    (aggGroup k rows).id = k.1.id := rfl

/-- Projection: `total_ingredients` counts the distinct required
ingredient ids among the group's rows. -/
theorem aggGroup_total (k : Recipe × Option Nat) (rows : List JRow) :
    (aggGroup k rows).total_ingredients =
      (dedupFirst (rows.map (fun row => row.rc.ingredient_id))).length := rfl

/-- Projection: `owned_ingredients` counts the distinct non-NULL pantry
ingredient ids among the group's rows. -/
theorem aggGroup_owned (k : Recipe × Option Nat) (rows : List JRow) :
    (aggGroup k rows).owned_ingredients =
      (dedupFirst
        (rows.filterMap (fun row => row.up.map (fun e => e.ingredient_id)))).length := rfl

/-- Projection: `v_score` is the rounded ratio of the two counts. -/
theorem aggGroup_v_score (k : Recipe × Option Nat) (rows : List JRow) :
    (aggGroup k rows).v_score =
      vScoreCenti (aggGroup k rows).owned_ingredients
        (aggGroup k rows).total_ingredients := rfl

/-- Projection: `missing_ingredients` aggregates the NULL-pantry rows, and
is NULL when the group has none. -/
theorem aggGroup_missing (k : Recipe × Option Nat) (rows : List JRow) :
    (aggGroup k rows).missing_ingredients =
      if (rows.filter (fun row => row.up.isNone)).isEmpty then none
      else some
        (dedupFirst
          ((rows.filter (fun row => row.up.isNone)).map (fun row => row.i.name))) := rfl

/-- `filterMap` of an everywhere-`some` function is a `map`. -/
theorem filterMap_some_eq_map {α β : Type} (f : α → β) (l : List α) :
    l.filterMap (fun a => some (f a)) = l.map f := by
  induction l with
  | nil => rfl
  | cons x xs ih => simp [List.filterMap_cons, ih]

/-- Rounding a full ratio gives exactly 100.00. -/
theorem roundHalfUp_full (t : Nat) (ht : 0 < t) :
    roundHalfUp (t * 10000) t = 10000 := by
  unfold roundHalfUp
  refine Nat.div_eq_of_lt_le ?_ ?_ <;> omega

/-- A filtered row whose group key carries a non-NULL user id holds a
pantry entry for its own required ingredient. -/
theorem row_up_of_key_some (db : DB) (row : JRow) (u : Nat)
    (hrow : row ∈ filteredRows db) (hkey : (groupKey row).2 = some u) :
    ∃ e, row.up = some e ∧ e.ingredient_id = row.rc.ingredient_id := by
  have hj : row ∈ joinedRows db := (List.mem_filter.mp hrow).1
  have hinv := mem_joinedRows db row hj
  unfold groupKey at hkey
  cases hup : row.up with
  | none => rw [hup] at hkey; simp at hkey
  | some e => exact ⟨e, rfl, (hinv.2.2.2.2.2.2 e hup).2.1⟩

/-- Core consequence of `GROUP BY up.user_id`: any view row with a
non-NULL `user_id` has `owned_ingredients = total_ingredients`,
`v_score = 100.00` and a NULL `missing_ingredients` list, since every
row of such a group carries a matching pantry entry and the rows for
unowned ingredients fall into the NULL-keyed group instead. -/
theorem perUser_view_row (db : DB) (v : RecView) (u : Nat)
    (hv : v ∈ recipe_recommendations db) (hu : v.user_id = some u) :
    v.owned_ingredients = v.total_ingredients ∧ v.v_score = some 10000 ∧
    v.missing_ingredients = none := by
  obtain ⟨⟨k, hk, rfl⟩, hpos⟩ := (mem_view_iff db v).mp hv
  rw [aggGroup_user_id] at hu
  have hall : ∀ row ∈ (filteredRows db).filter (fun row => groupKey row = k),
      ∃ e, row.up = some e ∧ e.ingredient_id = row.rc.ingredient_id := by
    intro row hr
    have hmem := List.mem_filter.mp hr
    have hgk : groupKey row = k := of_decide_eq_true hmem.2
    exact row_up_of_key_some db row u hmem.1 (by rw [hgk, hu])
  have hmissing :
      ((filteredRows db).filter (fun row => groupKey row = k)).filter
        (fun row => row.up.isNone) = [] := by
    refine List.filter_eq_nil_iff.mpr ?_
    intro row hr
    obtain ⟨e, he, -⟩ := hall row hr
    simp [he]
  have howned :
      (aggGroup k ((filteredRows db).filter (fun row => groupKey row = k))).owned_ingredients =
      (aggGroup k ((filteredRows db).filter (fun row => groupKey row = k))).total_ingredients := by
    rw [aggGroup_owned, aggGroup_total]
    have hfm :
        ((filteredRows db).filter (fun row => groupKey row = k)).filterMap
          (fun row => row.up.map (fun e => e.ingredient_id)) =
        ((filteredRows db).filter (fun row => groupKey row = k)).map
          (fun row => row.rc.ingredient_id) := by
      rw [List.filterMap_congr (g := fun row => some row.rc.ingredient_id) ?_]
      · exact filterMap_some_eq_map _ _
      · intro row hr
        obtain ⟨e, he, hei⟩ := hall row hr
        rw [he]
        simp [hei]
    rw [hfm]
  refine ⟨howned, ?_, ?_⟩
  · rw [aggGroup_v_score, howned]
    generalize ht :
      (aggGroup k ((filteredRows db).filter (fun row => groupKey row = k))).total_ingredients = t
    rw [ht] at hpos
    unfold vScoreCenti
    rw [if_neg (Nat.pos_iff_ne_zero.mp hpos), roundHalfUp_full t hpos]
  · rw [aggGroup_missing, hmissing]
    rfl

/-! ### Lemmas about the Dashboard ordering -/

/-- The descending comparator is total. -/
theorem vsGE_total (a b : Option Nat) : vsGE a b = true ∨ vsGE b a = true := by
  cases a with
  | none => exact Or.inl rfl
  | some x =>
      cases b with
      | none => exact Or.inr rfl
      | some y =>
          rcases Nat.le_total x y with h | h
          · exact Or.inr (by simpa [vsGE] using h)
          · exact Or.inl (by simpa [vsGE] using h)

/-- The descending comparator is transitive. -/
theorem vsGE_trans (a b c : Option Nat) (hab : vsGE a b = true)
    (hbc : vsGE b c = true) : vsGE a c = true := by
  cases a with
  | none => rfl
  | some x =>
      cases b with
      | none => simp [vsGE] at hab
      | some y =>
          cases c with
          | none => simp [vsGE] at hbc
          | some z =>
              simp only [vsGE, decide_eq_true_eq] at hab hbc ⊢
              exact le_trans hbc hab

/-- If `y` is not strictly above `x`, then `x` is at least `y`. -/
theorem vsGE_of_not_vsGT (x y : Option Nat) (h : vsGT y x = false) :
    vsGE x y = true := by
  unfold vsGT at h
  rcases vsGE_total x y with hx | hy
  · exact hx
  · cases hvx : vsGE x y with
    | true => rfl
    | false => rw [hy, hvx] at h; simp at h

/-- Strictly above implies at least. -/
theorem vsGE_of_vsGT (x y : Option Nat) (h : vsGT x y = true) :
    vsGE x y = true := by
  unfold vsGT at h
  simp only [Bool.and_eq_true] at h
  exact h.1

/-- Strictly above implies distinct. -/
theorem ne_of_vsGT (x y : Option Nat) (h : vsGT x y = true) : x ≠ y := by
  intro heq
  subst heq
  unfold vsGT at h
  cases hx : vsGE x x with
  | true => rw [hx] at h; simp at h
  | false => rw [hx] at h; simp at h

/-- Inserting preserves multiset contents. -/
theorem perm_insertDesc (x : RecView) (l : List RecView) :
    List.Perm (insertDesc x l) (x :: l) := by
  induction l with
  | nil => exact List.Perm.refl _
  | cons y ys ih =>
      unfold insertDesc
      by_cases h : vsGT y.v_score x.v_score = true
      · rw [if_pos h]
        exact ((ih.cons y).trans (List.Perm.swap x y ys))
      · rw [if_neg h]

/-- Sorting preserves multiset contents. -/
theorem perm_sortByVScoreDesc (l : List RecView) :
    List.Perm (sortByVScoreDesc l) l := by
  induction l with
  | nil => exact List.Perm.refl _
  | cons x xs ih =>
      exact (perm_insertDesc x (sortByVScoreDesc xs)).trans (ih.cons x)

/-- Inserting into a descending-sorted list keeps it sorted. -/
theorem pairwise_insertDesc (x : RecView) (l : List RecView)
    (hl : List.Pairwise (fun a b => vsGE a.v_score b.v_score = true) l) :
    List.Pairwise (fun a b => vsGE a.v_score b.v_score = true) (insertDesc x l) := by
  induction l with
  | nil => simp [insertDesc]
  | cons y ys ih =>
      obtain ⟨hy, hys⟩ := List.pairwise_cons.mp hl
      unfold insertDesc
      by_cases h : vsGT y.v_score x.v_score = true
      · rw [if_pos h]
        refine List.pairwise_cons.mpr ⟨?_, ih hys⟩
        intro b hb
        have hb2 : b ∈ x :: ys := (perm_insertDesc x ys).mem_iff.mp hb
        rcases List.mem_cons.mp hb2 with rfl | hbys
        · exact vsGE_of_vsGT _ _ h
        · exact hy b hbys
      · rw [if_neg h]
        refine List.pairwise_cons.mpr ⟨?_, hl⟩
        intro b hb
        rcases List.mem_cons.mp hb with rfl | hbys
        · exact vsGE_of_not_vsGT _ _ (Bool.eq_false_iff.mpr h)
        · exact vsGE_trans _ _ _ (vsGE_of_not_vsGT _ _ (Bool.eq_false_iff.mpr h))
            (hy b hbys)

/-- The Dashboard sort produces a descending-sorted list. -/
theorem pairwise_sortByVScoreDesc (l : List RecView) :
    List.Pairwise (fun a b => vsGE a.v_score b.v_score = true)
      (sortByVScoreDesc l) := by
  induction l with
  | nil => simp [sortByVScoreDesc]
  | cons x xs ih => exact pairwise_insertDesc x (sortByVScoreDesc xs) ih

/-- Insertion does not disturb the relative order of rows sharing one
score: filtering any fixed score commutes with insertion at the head. -/
theorem filter_score_insertDesc (s : Option Nat) (x : RecView)
    (l : List RecView) :
    (insertDesc x l).filter (fun v => v.v_score == s) =
      (x :: l).filter (fun v => v.v_score == s) := by
  induction l with
  | nil => rfl
  | cons y ys ih =>
      unfold insertDesc
      by_cases h : vsGT y.v_score x.v_score = true
      · rw [if_pos h]
        by_cases hx : (x.v_score == s) = true
        · have hxs : x.v_score = s := beq_iff_eq.mp hx
          have hy : (y.v_score == s) = false := by
            have hne : y.v_score ≠ x.v_score := ne_of_vsGT _ _ h
            rw [beq_eq_false_iff_ne]
            exact hxs ▸ hne
          simp [List.filter_cons, hy, hx, ih]
        · have hxf : (x.v_score == s) = false := Bool.eq_false_iff.mpr hx
          simp [List.filter_cons, hxf, ih]
      · rw [if_neg h]

/-- The Dashboard sort is stable: rows with any fixed `v_score` appear in
the same order as in the unsorted input. -/
theorem filter_score_sortByVScoreDesc (s : Option Nat) (l : List RecView) :
    (sortByVScoreDesc l).filter (fun v => v.v_score == s) =
      l.filter (fun v => v.v_score == s) := by
  induction l with
  | nil => rfl
  | cons x xs ih =>
      calc (sortByVScoreDesc (x :: xs)).filter (fun v => v.v_score == s)
          = (x :: sortByVScoreDesc xs).filter (fun v => v.v_score == s) :=
            filter_score_insertDesc s x (sortByVScoreDesc xs)
        _ = (x :: xs).filter (fun v => v.v_score == s) := by
            simp only [List.filter_cons, ih]

/-- Membership in the Dashboard output means membership in the view with
the requested `user_id`. -/
theorem mem_fetch (db : DB) (U : Nat) (v : RecView)
    (h : v ∈ fetchRecommendations db U) :
    v ∈ recipe_recommendations db ∧ v.user_id = some U := by
  unfold fetchRecommendations at h
  have h2 := (perm_sortByVScoreDesc _).mem_iff.mp h
  have h3 := List.mem_filter.mp h2
  exact ⟨h3.1, by simpa using h3.2⟩

/-- Every view row's `user_id` is NULL or the id of some profile. -/
theorem view_user_id_cases (db : DB) (v : RecView)
    (hv : v ∈ recipe_recommendations db) :
    v.user_id = none ∨ ∃ p ∈ db.profiles, v.user_id = some p := by
  obtain ⟨⟨k, hk, rfl⟩, -⟩ := (mem_view_iff db v).mp hv
  rw [aggGroup_user_id]
  obtain ⟨row, hrow, hgk⟩ := key_has_row db k hk
  have hj : row ∈ joinedRows db := (List.mem_filter.mp hrow).1
  have hinv := mem_joinedRows db row hj
  rw [← hgk]
  unfold groupKey
  cases hup : row.up with
  | none => exact Or.inl rfl
  | some e =>
      right
      refine ⟨row.p, hinv.2.2.2.2.2.1, ?_⟩
      have huid := (hinv.2.2.2.2.2.2 e hup).2.2
      simp [huid]

/-! ### Rows used by concrete witnesses -/

/-- The row the view actually emits for user 1 in the Omelette scenario. -/
def omeletteOwnedRow : RecView :=
  { id := 1, title := "Omelette", user_id := some 1, v_score := some 10000,
    missing_ingredients := none, total_ingredients := 3, owned_ingredients := 3 }

/-- The NULL-user group row of the Omelette scenario. -/
def omeletteNullRow : RecView :=
  { id := 1, title := "Omelette", user_id := none, v_score := some 0,
    missing_ingredients := some ["Butter", "Salt", "Pepper"],
    total_ingredients := 3, owned_ingredients := 0 }

/-- User 1's row for the two-ingredient recipe before the pantry insertion. -/
def monoRowBefore : RecView :=
  { id := 1, title := "Omelette", user_id := some 1, v_score := some 10000,
    missing_ingredients := none, total_ingredients := 1, owned_ingredients := 1 }

/-- User 1's row for the two-ingredient recipe after the pantry insertion. -/
def monoRowAfter : RecView :=
  { id := 1, title := "Omelette", user_id := some 1, v_score := some 10000,
    missing_ingredients := none, total_ingredients := 2, owned_ingredients := 2 }

/-! ### Claim theorems -/

/-- Claim C1 (code bug): in the Omelette scenario the recipe's Requirement
Set has 6 distinct ingredients of which the user's pantry holds 3, yet the
emitted recommendation row reports `total_ingredients = 3` — the count of
owned ingredients — because the unowned rows fall into the NULL-user group;
the claim says `total_ingredients` should equal 6. -/
theorem c1_total_ingredients_counts_only_owned :
    (dedupFirst ((omeletteDB.recipe_components.filter
        (fun rc => rc.recipe_id == 1)).map (fun rc => rc.ingredient_id))).length = 6 ∧
    (omeletteDB.user_pantry.filter (fun e => e.user_id == 1)).length = 3 ∧
    (fetchRecommendations omeletteDB 1).map
      (fun v => (v.owned_ingredients, v.total_ingredients)) = [(3, 3)] := by decide

/-- Claim C2 (code bug): ingredient 2 (Peanut) of recipe 1's Requirement Set
is in user 1's Restriction Set, yet recipe 1 still appears in user 1's
recommendation list — the NOT EXISTS anti-join removes only the restricted
ingredient's joined rows, not the whole recipe; the claim says the recipe
must be entirely absent. -/
theorem c2_restricted_recipe_not_excluded :
    restrictedFor restrictDB 1 2 = true ∧
    (∃ rc ∈ restrictDB.recipe_components, rc.recipe_id = 1 ∧ rc.ingredient_id = 2) ∧
    (fetchRecommendations restrictDB 1).map (fun v => v.id) = [1] := by decide

/-- Claim C3 (code bug): in the exact Omelette scenario of the spec the
code outputs `owned_ingredients = 3, total_ingredients = 3,
v_score = 100.00, missing_ingredients = NULL`, not the claimed
`3, 6, 50.00, [Butter, Salt, Pepper]`. -/
theorem c3_omelette_scenario_actual_output :
    fetchRecommendations omeletteDB 1 = [omeletteOwnedRow] := by decide

/-- Claim C4 (code bug): user 1 exists, has an empty pantry and no
restrictions, and recipe 1 has a requirement, yet user 1's recommendation
list is empty — with nothing owned, every joined row carries a NULL
`user_id`, so no row survives the Dashboard's `user_id` filter; the claim
says every such recipe should appear with `v_score = 0.00`. -/
theorem c4_empty_pantry_user_gets_no_rows :
    emptyPantryDB.user_pantry = [] ∧ emptyPantryDB.user_restrictions = [] ∧
    1 ∈ emptyPantryDB.profiles ∧
    (∃ rc ∈ emptyPantryDB.recipe_components, rc.recipe_id = 1) ∧
    (⟨1, "Plain Rice"⟩ : Recipe) ∈ emptyPantryDB.recipes ∧
    fetchRecommendations emptyPantryDB 1 = [] := by decide

/-- Claim C5 (confirmed): every view row with a non-NULL `user_id` has
`owned_ingredients = total_ingredients`, hence `v_score = 100.00`, and a
NULL `missing_ingredients` list, because grouping by the pantry-side
`up.user_id` sends every unowned-ingredient row into the shared NULL
group. -/
theorem c5_per_user_rows_always_full_score (db : DB) (v : RecView) (u : Nat)
    (hv : v ∈ recipe_recommendations db) (hu : v.user_id = some u) :
    v.owned_ingredients = v.total_ingredients ∧ v.v_score = some 10000 ∧
    v.missing_ingredients = none :=
  perUser_view_row db v u hv hu

/-- Witness for C5 at the Omelette scenario's per-user row. -/
theorem c5_per_user_rows_always_full_score_witness :
    omeletteOwnedRow ∈ recipe_recommendations omeletteDB ∧
    (omeletteOwnedRow.owned_ingredients = omeletteOwnedRow.total_ingredients ∧
      omeletteOwnedRow.v_score = some 10000 ∧
      omeletteOwnedRow.missing_ingredients = none) :=
  ⟨by decide,
    c5_per_user_rows_always_full_score omeletteDB omeletteOwnedRow 1 (by decide) rfl⟩

/-- Claim C6 (confirmed): a recipe whose Requirement Set is empty never
appears in any user's recommendation output, because the INNER JOIN with
`recipe_components` produces no joined row for it. -/
theorem c6_zero_requirement_recipe_absent (db : DB) (U rid : Nat)
    (h : ∀ rc ∈ db.recipe_components, rc.recipe_id ≠ rid) :
    ∀ v ∈ fetchRecommendations db U, v.id ≠ rid := by
  intro v hv
  obtain ⟨hview, -⟩ := mem_fetch db U v hv
  obtain ⟨⟨k, hk, hveq⟩, -⟩ := (mem_view_iff db v).mp hview
  obtain ⟨row, hrow, hgk⟩ := key_has_row db k hk
  have hj : row ∈ joinedRows db := (List.mem_filter.mp hrow).1
  have hinv := mem_joinedRows db row hj
  have hid : v.id = row.r.id := by
    rw [hveq, aggGroup_id, ← hgk]
    rfl
  rw [hid, ← hinv.2.2.1]
  exact h row.rc hinv.2.1

/-- Witness for C6: recipe 2 of `zeroReqDB` has no requirements and is
absent from user 1's output. -/
theorem c6_zero_requirement_recipe_absent_witness :
    (∀ rc ∈ zeroReqDB.recipe_components, rc.recipe_id ≠ 2) ∧
    ∀ v ∈ fetchRecommendations zeroReqDB 1, v.id ≠ 2 :=
  ⟨by decide, c6_zero_requirement_recipe_absent zeroReqDB 1 2 (by decide)⟩

/-- Claim C7 (confirmed): every emitted view row has a positive
`COUNT(DISTINCT rc.ingredient_id)` — the HAVING clause guarantees it — so
the `NULLIF` guard never yields NULL and `v_score` is never NULL. -/
theorem c7_v_score_denominator_positive (db : DB) (v : RecView)
    (hv : v ∈ recipe_recommendations db) :
    0 < v.total_ingredients ∧ v.v_score ≠ none := by
  obtain ⟨⟨k, hk, rfl⟩, hpos⟩ := (mem_view_iff db v).mp hv
  refine ⟨hpos, ?_⟩
  rw [aggGroup_v_score]
  unfold vScoreCenti
  rw [if_neg (Nat.pos_iff_ne_zero.mp hpos)]
  simp

/-- Witness for C7 at the Omelette scenario's NULL-user row. -/
theorem c7_v_score_denominator_positive_witness :
    omeletteNullRow ∈ recipe_recommendations omeletteDB ∧
    (0 < omeletteNullRow.total_ingredients ∧ omeletteNullRow.v_score ≠ none) :=
  ⟨by decide, c7_v_score_denominator_positive omeletteDB omeletteNullRow (by decide)⟩

/-- Claim C8 (confirmed): the Dashboard output is exactly the per-user
rows of the view, sorted by descending `v_score` (pairwise, under the
NULLS-FIRST descending comparator), and the sort is stable: rows sharing
any fixed score keep the view's order. -/
theorem c8_output_sorted_desc_stable (db : DB) (U : Nat) :
    List.Pairwise (fun a b => vsGE a.v_score b.v_score = true)
      (fetchRecommendations db U) ∧
    List.Perm (fetchRecommendations db U)
      ((recipe_recommendations db).filter (fun v => v.user_id == some U)) ∧
    ∀ s, (fetchRecommendations db U).filter (fun v => v.v_score == s) =
      ((recipe_recommendations db).filter
        (fun v => v.user_id == some U)).filter (fun v => v.v_score == s) :=
  ⟨pairwise_sortByVScoreDesc _, perm_sortByVScoreDesc _,
    fun s => filter_score_sortByVScoreDesc s _⟩

/-- Claim C9 (confirmed): inserting into user U's pantry an entry for an
ingredient some recipe R requires never lowers R's `v_score` in U's
output — any per-user row scores 100.00 before and after. -/
theorem c9_pantry_add_monotone (db : DB) (U R : Nat) (e : PantryEntry)
    (_hU : e.user_id = U)
    (_hreq : ∃ rc ∈ db.recipe_components,
      rc.recipe_id = R ∧ rc.ingredient_id = e.ingredient_id)
    (v vafter : RecView)
    (hv : v ∈ fetchRecommendations db U) (_hid : v.id = R)
    (hvafter :
      vafter ∈ fetchRecommendations { db with user_pantry := e :: db.user_pantry } U)
    (_hidafter : vafter.id = R) :
    vsGE vafter.v_score v.v_score = true := by
  obtain ⟨hview, huid⟩ := mem_fetch db U v hv
  obtain ⟨hviewa, huida⟩ := mem_fetch _ U vafter hvafter
  have h1 := perUser_view_row db v U hview huid
  have h2 := perUser_view_row _ vafter U hviewa huida
  rw [h1.2.1, h2.2.1]
  decide

/-- Witness for C9: user 1 acquires required ingredient 2 of recipe 1. -/
theorem c9_pantry_add_monotone_witness :
    monoNewEntry.user_id = 1 ∧
    (∃ rc ∈ monoDB.recipe_components,
      rc.recipe_id = 1 ∧ rc.ingredient_id = monoNewEntry.ingredient_id) ∧
    monoRowBefore ∈ fetchRecommendations monoDB 1 ∧ monoRowBefore.id = 1 ∧
    monoRowAfter ∈
      fetchRecommendations { monoDB with user_pantry := monoNewEntry :: monoDB.user_pantry } 1 ∧
    monoRowAfter.id = 1 ∧
    vsGE monoRowAfter.v_score monoRowBefore.v_score = true :=
  ⟨rfl, by decide, by decide, rfl, by decide, rfl,
    c9_pantry_add_monotone monoDB 1 1 monoNewEntry rfl (by decide)
      monoRowBefore monoRowAfter (by decide) rfl (by decide) rfl⟩

/-- Claim C10 (confirmed): a user id with no profile row yields an empty
Dashboard result — every view row's `user_id` is NULL or an existing
profile id, so the `user_id` filter matches nothing. -/
theorem c10_unknown_user_empty (db : DB) (U : Nat) (h : U ∉ db.profiles) :
    fetchRecommendations db U = [] := by
  unfold fetchRecommendations
  have hfil :
      (recipe_recommendations db).filter (fun v => v.user_id == some U) = [] := by
    refine List.filter_eq_nil_iff.mpr ?_
    intro v hv
    rcases view_user_id_cases db v hv with hnone | ⟨p, hp, hsome⟩
    · simp [hnone]
    · rw [hsome]
      simp only [beq_iff_eq, Option.some.injEq]
      intro heq
      exact h (heq ▸ hp)
  rw [hfil]
  rfl

/-- Witness for C10: user 99 has no profile in the Omelette database. -/
theorem c10_unknown_user_empty_witness :
    (99 ∉ omeletteDB.profiles) ∧ fetchRecommendations omeletteDB 99 = [] :=
  ⟨by decide, c10_unknown_user_empty omeletteDB 99 (by decide)⟩
